import Mathlib

/-!
Verification of the Havenmind backend core against its specification.

This file gives a shallow embedding, in Lean 4, of the parts of the
Havenmind backend that the checked claims are about:

* the skill-progression engine (`backend/app/services/skills_service.py`);
* the helper utilities (`backend/app/utils/helpers.py`): element
  placement, emotion-to-color mapping, skill-unlock predicate;
* the sentiment analyzer (`backend/app/services/sentiment_service.py`).

Modelling conventions:

* Python `int` values are embedded as `Int` (or `Nat` where the source
  can only produce non-negative values), Python `float` values as `Rat`
  (the source only adds, multiplies, divides and compares, so exact
  rational arithmetic mirrors the arithmetic structure; binary-float
  representation error is out of scope).  `round(x, 3)` is embedded as
  exact round-half-to-even at three decimals (`pyRound3`).
* Python text is embedded as `List Nat` (Unicode code points), so that
  lower-casing, word-splitting and substring tests are plain arithmetic
  on code points.  ASCII semantics are used for the character classes
  the source consults (`\s`, `\w`, `str.lower`, `str.split`).
* The SQLAlchemy table of `UserSkill` rows for one session is embedded
  as an association list `SkillDb` from skill name to record; `query
  ... .first()` is `List.lookup` (first match), `db.add` appends, and
  mutating the object returned by `.first()` replaces the first match.
* `random.uniform` is embedded by an explicit sample stream
  `Nat → Rat × Rat` giving the successive sampled points, and the
  TextBlob sentiment call by an `Option (Rat × Rat)` argument: `none`
  models the call raising (the only effectful statement inside the
  `try` of `analyze_sentiment`; every other helper there is pure and
  total), `some (polarity, subjectivity)` models its result.
-/

namespace Havenmind

/-! ## Skill-progression engine: constants and data model -/

/-- From `config.py`: `SKILL_MASTERY_LEVELS: int = 5`. -/
def SKILL_MASTERY_LEVELS : Nat := 5

/-- From `config.py`: `SKILLS_LIST`. -/
def SKILLS_LIST : List String :=
  ["mindful_breathing", "gratitude_practice", "emotional_regulation",
   "self_compassion", "grounding_techniques", "positive_visualization"]

/-- Experience thresholds for each level, from
`SkillsService._calculate_mastery_level` and
`SkillsService._calculate_progress_to_next`:
`thresholds = [0, 50, 150, 300, 500, 800]`. -/
def thresholds : List Int := [0, 50, 150, 300, 500, 800]

/-- One `UserSkill` row (model `sanctuary.py`), restricted to the columns
the skill-progression logic reads or writes.  Column defaults are
`mastery_level=0, experience_points=0, times_practiced=0,
unlocked=False`; timestamps are not modelled (no claim consults them). -/
structure UserSkillRec where
  mastery_level : Nat
  experience_points : Int
  times_practiced : Nat
  unlocked : Bool
deriving DecidableEq, Repr

/-- The `UserSkill` rows of one session, keyed by `skill_name`.
`query(...).filter(skill_name == n).first()` is `List.lookup n`. -/
abbrev SkillDb : Type := List (String × UserSkillRec)

/-- Replace the first row whose key is `n` (SQLAlchemy mutation of the
object returned by `.first()`, followed by commit). -/
def dbReplace : SkillDb → String → UserSkillRec → SkillDb
  | [], _, _ => []
  | (k, r) :: rest, n, r2 =>
      if k == n then (k, r2) :: rest else (k, r) :: dbReplace rest n r2

/-! ## Pure calculators of `SkillsService` -/

/-- `SkillsService._calculate_experience_gained`.  `completion_rating`
is `Optional[int]`; the source guard `if completion_rating:` is Python
truthiness, false for both `None` and `0`. -/
def calculate_experience_gained (duration_minutes : Int)
    (completion_rating : Option Int) : Int :=
  let base_experience := duration_minutes * 2
  let base_experience :=
    match completion_rating with
    | some rating => if rating == 0 then base_experience
                     else base_experience + rating * 5
    | none => base_experience
  min base_experience 100

/-- The `for level, threshold in enumerate(thresholds)` loop of
`SkillsService._calculate_mastery_level`: returns `max(0, level - 1)` at
the first threshold exceeding the experience (`Nat` subtraction already
truncates at 0 like Python's `max(0, level - 1)`), else `len - 1`. -/
def masteryLoop (experience_points : Int) : Nat → List Int → Nat
  | level, threshold :: rest =>
      if experience_points < threshold then level - 1
      else masteryLoop experience_points (level + 1) rest
  | _, [] => thresholds.length - 1

/-- `SkillsService._calculate_mastery_level`. -/
def calculate_mastery_level (experience_points : Int) : Nat :=
  masteryLoop experience_points 0 thresholds

/-- `SkillsService._calculate_progress_to_next` (reads only
`mastery_level` and `experience_points` of the row). -/
def calculate_progress_to_next (skill : UserSkillRec) : Rat :=
  if skill.mastery_level ≥ SKILL_MASTERY_LEVELS - 1 then 1
  else
    let current_threshold := thresholds.getD skill.mastery_level 0
    let next_threshold := thresholds.getD (skill.mastery_level + 1) 0
    let progress_in_level := skill.experience_points - current_threshold
    let level_range := next_threshold - current_threshold
    min 1 ((progress_in_level : Rat) / (level_range : Rat))

/-! ## Skill-unlock predicate (`helpers.should_unlock_skill`) -/

/-- One entry of `emotion_history`: the unlock predicate reads
`entry.get("emotion", "")` and `entry.get("sentiment_score", 0)`. -/
structure EmotionEntry where
  emotion : String
  sentiment_score : Rat
deriving DecidableEq

/-- Python slice `l[-n:]`: the last `n` elements. -/
def pyLastN (n : Nat) (l : List α) : List α := l.drop (l.length - n)

/-- `helpers.should_unlock_skill`.  Journal entries are consulted only
for their count, so they are embedded as `List Unit`.  The source's
`unlock_conditions` dict lookup with default `False` is an association
list lookup with `getD false`. -/
def should_unlock_skill (skill_name : String)
    (emotion_history : List EmotionEntry) (journal_entries : List Unit) :
    Bool :=
  if emotion_history.isEmpty then skill_name == "mindful_breathing"
  else
    let recent_emotions := (pyLastN 10 emotion_history).map (·.emotion)
    let recent_sentiments :=
      (pyLastN 10 emotion_history).map (·.sentiment_score)
    let unlock_conditions : List (String × Bool) :=
      [("mindful_breathing", true),
       ("gratitude_practice",
         (pyLastN 5 recent_sentiments).any (fun s => (0.3 : Rat) < s)),
       ("emotional_regulation",
         3 ≤ (recent_sentiments.filter (fun s => (0.7 : Rat) < |s|)).length),
       ("self_compassion",
         recent_emotions.contains "sadness" ||
           recent_emotions.contains "disappointment"),
       ("grounding_techniques",
         recent_emotions.contains "anxiety" ||
           recent_emotions.contains "worry"),
       ("positive_visualization", 3 ≤ journal_entries.length)]
    (unlock_conditions.lookup skill_name).getD false

/-! ## Stateful operations of `SkillsService`

Each operation is embedded as a pure transformer of the session's
`SkillDb` (the net effect of the queries, object mutations and the final
`commit`).  The JSON response payload of `get_user_skills` and the
`SkillSession` log row appended by `practice_skill` are not modelled: no
claim consults them. -/

/-- Row created by the lazy-creation loop of
`SkillsService.get_user_skills`: explicit zero fields and
`unlocked=(skill_name == "mindful_breathing")`. -/
def defaultSkillRec (skill_name : String) : UserSkillRec :=
  { mastery_level := 0, experience_points := 0, times_practiced := 0,
    unlocked := skill_name == "mindful_breathing" }

/-- The `for skill_name in self.available_skills` creation loop of
`SkillsService.get_user_skills`; membership is tested against the
pre-computed `existing_skill_names`. -/
def createDefaultsLoop (existing_skill_names : List String) :
    List String → SkillDb → SkillDb
  | [], db => db
  | skill_name :: rest, db =>
      createDefaultsLoop existing_skill_names rest
        (if existing_skill_names.contains skill_name then db
         else db ++ [(skill_name, defaultSkillRec skill_name)])

/-- Persistent-state effect of `SkillsService.get_user_skills`: create a
default row for every configured skill the session does not yet have. -/
def get_user_skills (db : SkillDb) : SkillDb :=
  createDefaultsLoop (db.map Prod.fst) SKILLS_LIST db

/-- Row created by `SkillsService.update_skill_unlocks` (and by
`SkillsService.practice_skill`) for a skill with no existing row: only
`unlocked=True` is passed, the other columns take their defaults. -/
def unlockedSkillRec : UserSkillRec :=
  { mastery_level := 0, experience_points := 0, times_practiced := 0,
    unlocked := true }

/-- The `for skill_name in self.available_skills` loop of
`SkillsService.update_skill_unlocks`, threading the database and the
`newly_unlocked` accumulator. -/
def unlocksLoop (emotion_history : List EmotionEntry)
    (journal_entries : List Unit) :
    List String → SkillDb → List String → SkillDb × List String
  | [], db, newly_unlocked => (db, newly_unlocked)
  | skill_name :: rest, db, newly_unlocked =>
      if should_unlock_skill skill_name emotion_history journal_entries then
        match db.lookup skill_name with
        | none =>
            unlocksLoop emotion_history journal_entries rest
              (db ++ [(skill_name, unlockedSkillRec)])
              (newly_unlocked ++ [skill_name])
        | some skill =>
            if skill.unlocked then
              unlocksLoop emotion_history journal_entries rest db
                newly_unlocked
            else
              unlocksLoop emotion_history journal_entries rest
                (dbReplace db skill_name { skill with unlocked := true })
                (newly_unlocked ++ [skill_name])
      else unlocksLoop emotion_history journal_entries rest db newly_unlocked

/-- `SkillsService.update_skill_unlocks`: returns the updated rows and
the list of newly unlocked skill names. -/
def update_skill_unlocks (db : SkillDb)
    (emotion_history : List EmotionEntry) (journal_entries : List Unit) :
    SkillDb × List String :=
  unlocksLoop emotion_history journal_entries SKILLS_LIST db []

/-- Result payload of `SkillsService.practice_skill` (the fields the
claims consult; `skill_info` and the log row id are omitted). -/
structure PracticeResult where
  success : Bool
  experience_gained : Int
  total_experience : Int
  old_level : Nat
  new_level : Nat
  level_up : Bool
  times_practiced : Nat
deriving DecidableEq, Repr

/-- `SkillsService.practice_skill`: get-or-create the row (a row created
here is created with `unlocked=True`; after `db.flush()` its other
columns hold their defaults), add experience, recompute the mastery
level, clamp it to `SKILL_MASTERY_LEVELS - 1`, and report.  The source
computes `level_up = new_level > old_level` from the unclamped
`new_level` but returns the clamped `user_skill.mastery_level` in the
`new_level` field of the result. -/
def practice_skill (db : SkillDb) (skill_name : String)
    (duration_minutes : Int) (completion_rating : Option Int) :
    SkillDb × PracticeResult :=
  let found := db.lookup skill_name
  let user_skill :=
    match found with
    | some r => r
    | none => unlockedSkillRec
  let old_level := user_skill.mastery_level
  let experience_gained :=
    calculate_experience_gained duration_minutes completion_rating
  let total_experience := user_skill.experience_points + experience_gained
  let new_level := calculate_mastery_level total_experience
  let updated : UserSkillRec :=
    { user_skill with
        experience_points := total_experience,
        times_practiced := user_skill.times_practiced + 1,
        mastery_level := min new_level (SKILL_MASTERY_LEVELS - 1) }
  let db2 :=
    match found with
    | some _ => dbReplace db skill_name updated
    | none => db ++ [(skill_name, updated)]
  (db2,
   { success := true, experience_gained := experience_gained,
     total_experience := total_experience, old_level := old_level,
     new_level := updated.mastery_level,
     level_up := decide (old_level < new_level),
     times_practiced := updated.times_practiced })

/-- Iterated practice of one skill (the "sequence of practice calls" the
claims quantify over): fold `practice_skill` over a list of
`(duration, rating)` inputs. -/
def practiceSeq (db : SkillDb) (skill_name : String) :
    List (Int × Option Int) → SkillDb
  | [] => db
  | (d, c) :: rest =>
      practiceSeq (practice_skill db skill_name d c).1 skill_name rest

/-- The stored experience points of a skill (0 when the row is absent,
matching the column default a fresh row would receive). -/
def expOf (db : SkillDb) (skill_name : String) : Int :=
  ((db.lookup skill_name).map (·.experience_points)).getD 0

/-- The stored mastery level of a skill (0 when the row is absent). -/
def levelOf (db : SkillDb) (skill_name : String) : Nat :=
  ((db.lookup skill_name).map (·.mastery_level)).getD 0

/-! ## Spec-side mastery-level definition (for claim C3)

The specification states the invariant as: the stored mastery level is
the largest index `i` with `experience >= thresholds[i]`, clamped to the
maximum tier.  `specLargestIdx` is that description, written from the
spec's words (not from the source), so the source computation can be
compared against it. -/

/-- Modelled from the spec: the largest index `i` of the threshold table
with `thresholds[i] <= experience` (0 when no index qualifies, which for
the spec's domain `experience >= 0` never happens). -/
def specLargestIdx (experience_points : Int) : Nat :=
  Nat.findGreatest (fun i => thresholds.getD i 0 ≤ experience_points)
    (thresholds.length - 1)

/-- The invariant of claim C3, for one row: non-negative experience, and
a stored mastery level equal to the spec's largest qualifying threshold
index clamped to the top tier. -/
def skillInv (r : UserSkillRec) : Prop :=
  0 ≤ r.experience_points ∧
    r.mastery_level = min (specLargestIdx r.experience_points)
      (SKILL_MASTERY_LEVELS - 1)

/-- The invariant of claim C3 over a whole session database. -/
def dbInv (db : SkillDb) : Prop :=
  ∀ n r, db.lookup n = some r → skillInv r

/-- The claims' input domain for a completion rating: absent, or an
integer star rating between 1 and 5. -/
def ratingOk (completion_rating : Option Int) : Prop :=
  ∀ r, completion_rating = some r → 1 ≤ r ∧ r ≤ 5

/-! ## Element placement (`helpers.calculate_element_position`) -/

/-- An existing sanctuary element's position, as read from the
`element['x_position']` / `element['y_position']` dict entries. -/
structure ElementPos where
  x_position : Rat
  y_position : Rat
deriving DecidableEq

/-- The body of the source's distance check for one existing element:
`math.sqrt((x-ex)**2 + (y-ey)**2) < min_distance` with
`min_distance = 80`.  Both sides are non-negative, so comparing squared
distance with `80^2 = 6400` is exactly equivalent (squaring is monotone
on non-negatives) and stays inside `Rat`. -/
def tooCloseTo (x y : Rat) (element : ElementPos) : Bool :=
  decide ((x - element.x_position) * (x - element.x_position) +
    (y - element.y_position) * (y - element.y_position) < 6400)

/-- The `for _ in range(max_attempts)` loop of
`helpers.calculate_element_position`: `i` counts the sampled points so
far, the second argument the attempts remaining.  When the budget runs
out, the source draws one further fresh point (`random.uniform` twice)
and returns it unchecked. -/
def positionLoop (existing_elements : List ElementPos)
    (sample : Nat → Rat × Rat) : Nat → Nat → Rat × Rat
  | i, 0 => sample i
  | i, attempts_left + 1 =>
      if existing_elements.any
          (tooCloseTo (sample i).1 (sample i).2) then
        positionLoop existing_elements sample (i + 1) attempts_left
      else ((sample i).1, (sample i).2)

/-- `helpers.calculate_element_position` with `max_attempts = 50`,
`min_distance = 80`.  The canvas dimensions only parameterize the
`random.uniform(50, width-50)` / `random.uniform(50, height-50)` calls,
which the sample stream models, so they do not appear in the body. -/
def calculate_element_position (existing_elements : List ElementPos)
    (canvas_width canvas_height : Int) (sample : Nat → Rat × Rat) :
    Rat × Rat :=
  positionLoop existing_elements sample 0 50

/-- The sampling box `[50, width-50] × [50, height-50]` of
`random.uniform`. -/
def inCanvas (canvas_width canvas_height : Int) (p : Rat × Rat) : Prop :=
  50 ≤ p.1 ∧ p.1 ≤ (canvas_width : Rat) - 50 ∧
    50 ≤ p.2 ∧ p.2 ≤ (canvas_height : Rat) - 50

/-- Modelled from the claim's words (claim C4): sample AT MOST 50
candidate points, return the first fitting one, and if all 50 attempts
fail return the LAST sampled point (the 50th).  This is the behaviour
the claim ascribes to the source, stated as a definition so the source
can be compared against it. -/
def claimedElementPosition (existing_elements : List ElementPos)
    (sample : Nat → Rat × Rat) : Rat × Rat :=
  match (List.range 50).find? (fun i =>
      !(existing_elements.any (tooCloseTo (sample i).1 (sample i).2)))
    with
  | some i => sample i
  | none => sample 49

/-! ## Text as code points, and `helpers.emotion_to_color` -/

/-- A Python string as its list of Unicode code points. -/
def s2l (s : String) : List Nat := s.toList.map Char.toNat

/-- `str.lower` on one code point (ASCII range, the range the source's
lookup keys inhabit). -/
def lowerCp (c : Nat) : Nat := if 65 ≤ c ∧ c ≤ 90 then c + 32 else c

/-- `str.lower`. -/
def pyLower (s : List Nat) : List Nat := s.map lowerCp

/-- The `emotion_colors` dict of `helpers.emotion_to_color`. -/
def emotion_colors : List (List Nat × String) :=
  [(s2l ("joy"), "#FFD700"), (s2l ("excitement"), "#FF6B35"),
   (s2l ("gratitude"), "#98D8C8"), (s2l ("love"), "#FF69B4"),
   (s2l ("hope"), "#87CEEB"), (s2l ("contentment"), "#DDA0DD"),
   (s2l ("calm"), "#B0E0E6"), (s2l ("peace"), "#F0F8FF"),
   (s2l ("optimism"), "#FFA07A"), (s2l ("neutral"), "#D3D3D3"),
   (s2l ("contemplation"), "#9370DB"), (s2l ("acceptance"), "#F5DEB3"),
   (s2l ("sadness"), "#4169E1"), (s2l ("worry"), "#8B7D6B"),
   (s2l ("disappointment"), "#708090"), (s2l ("longing"), "#DDA0DD"),
   (s2l ("anger"), "#DC143C"), (s2l ("frustration"), "#CD5C5C"),
   (s2l ("despair"), "#2F4F4F"), (s2l ("anxiety"), "#696969")]

/-- `helpers.emotion_to_color`:
`emotion_colors.get(emotion.lower(), "#D3D3D3")`. -/
def emotion_to_color (emotion : List Nat) : String :=
  (emotion_colors.lookup (pyLower emotion)).getD "#D3D3D3"

/-! ## Sentiment analyzer (`sentiment_service.py`) -/

/-- Python `\s` (ASCII): space, tab, LF, VT, FF, CR. -/
def isSpaceCp (c : Nat) : Bool :=
  c == 32 || c == 9 || c == 10 || c == 11 || c == 12 || c == 13

/-- Python `\w` (ASCII): digits, letters, underscore. -/
def isWordCp (c : Nat) : Bool :=
  (48 ≤ c && c ≤ 57) || (65 ≤ c && c ≤ 90) || (97 ≤ c && c ≤ 122) ||
    c == 95

/-- Characters kept by `re.sub(r'[^\w\s.,!?-]', '', text)`. -/
def keepCp (c : Nat) : Bool :=
  isWordCp c || isSpaceCp c || c == 46 || c == 44 || c == 33 ||
    c == 63 || c == 45

/-- `re.sub(r'\s+', ' ', text)`: each maximal whitespace run becomes one
space (the run's last character emits the space, earlier ones are
dropped). -/
def collapseWs : List Nat → List Nat
  | [] => []
  | c :: rest =>
      if isSpaceCp c then
        match rest with
        | c2 :: _ =>
            if isSpaceCp c2 then collapseWs rest else 32 :: collapseWs rest
        | [] => [32]
      else c :: collapseWs rest

/-- `str.strip()`: drop whitespace at both ends. -/
def pyStrip (s : List Nat) : List Nat :=
  ((s.dropWhile isSpaceCp).reverse.dropWhile isSpaceCp).reverse

/-- `SentimentService._clean_text` (named without the Python private
underscore): collapse whitespace, drop the disallowed characters, strip,
lower-case. -/
def clean_text (text : List Nat) : List Nat :=
  pyLower (pyStrip ((collapseWs text).filter keepCp))

/-- Worker for `str.split()` (no separator): maximal non-whitespace
runs, no empty words. -/
def pySplitGo : List Nat → List Nat → List (List Nat)
  | [], acc => if acc.isEmpty then [] else [acc.reverse]
  | c :: rest, acc =>
      if isSpaceCp c then
        if acc.isEmpty then pySplitGo rest []
        else acc.reverse :: pySplitGo rest []
      else pySplitGo rest (c :: acc)

/-- `str.split()` with no separator. -/
def pySplit (s : List Nat) : List (List Nat) := pySplitGo s []

/-- Python `kw in word` (substring containment). -/
def isSubstring (kw s : List Nat) : Bool :=
  (List.range (s.length + 1)).any
    (fun i => (s.drop i).take kw.length == kw)

/-- Exact round-half-to-even to an integer (the semantics of Python's
`round` on the exact value). -/
def roundHalfEven (x : Rat) : Int :=
  let f := ⌊x⌋
  if x - f < 1/2 then f
  else if 1/2 < x - f then f + 1
  else if f % 2 == 0 then f else f + 1

/-- Python `round(x, 3)` on the exact value. -/
def pyRound3 (x : Rat) : Rat := (roundHalfEven (x * 1000) : Rat) / 1000

/-- The `self.emotion_keywords` table of `SentimentService.__init__`. -/
def emotion_keywords : List (String × List (List Nat)) :=
  [("joy", [s2l ("happy"), s2l ("excited"), s2l ("delighted"),
     s2l ("thrilled"), s2l ("ecstatic"), s2l ("cheerful"),
     s2l ("elated")]),
   ("love", [s2l ("love"), s2l ("adore"), s2l ("cherish"),
     s2l ("affection"), s2l ("caring"), s2l ("devoted"),
     s2l ("tender")]),
   ("gratitude", [s2l ("grateful"), s2l ("thankful"), s2l ("blessed"),
     s2l ("appreciative"), s2l ("fortunate")]),
   ("hope", [s2l ("hopeful"), s2l ("optimistic"), s2l ("confident"),
     s2l ("positive"), s2l ("bright"), s2l ("promising")]),
   ("calm", [s2l ("peaceful"), s2l ("serene"), s2l ("tranquil"),
     s2l ("relaxed"), s2l ("calm"), s2l ("content"), s2l ("soothed")]),
   ("sadness", [s2l ("sad"), s2l ("down"), s2l ("blue"),
     s2l ("melancholy"), s2l ("gloomy"), s2l ("dejected"),
     s2l ("sorrowful")]),
   ("anger", [s2l ("angry"), s2l ("furious"), s2l ("mad"),
     s2l ("irritated"), s2l ("annoyed"), s2l ("frustrated"),
     s2l ("livid")]),
   ("fear", [s2l ("scared"), s2l ("afraid"), s2l ("terrified"),
     s2l ("anxious"), s2l ("worried"), s2l ("nervous"),
     s2l ("fearful")]),
   ("anxiety", [s2l ("anxious"), s2l ("stressed"), s2l ("overwhelmed"),
     s2l ("panicked"), s2l ("tense"), s2l ("uneasy")]),
   ("loneliness", [s2l ("lonely"), s2l ("isolated"), s2l ("alone"),
     s2l ("abandoned"), s2l ("disconnected"), s2l ("empty")]),
   ("confusion", [s2l ("confused"), s2l ("uncertain"), s2l ("lost"),
     s2l ("bewildered"), s2l ("puzzled"), s2l ("unclear")]),
   ("disappointment", [s2l ("disappointed"), s2l ("let down"),
     s2l ("discouraged"), s2l ("deflated"), s2l ("disheartened")])]

/-- `SentimentService._detect_emotions`: per emotion, the fraction of
words containing any keyword as a substring, rounded to 3 decimals,
kept only when at least one word matches; dict insertion order is the
table order. -/
def detect_emotions (text : List Nat) : List (String × Rat) :=
  let words := pySplit text
  let total_words := words.length
  if total_words == 0 then []
  else
    emotion_keywords.filterMap (fun ek =>
      let count :=
        (words.filter (fun w => ek.2.any (fun kw => isSubstring kw w))).length
      if 0 < count then
        some (ek.1, pyRound3 ((count : Rat) / (total_words : Rat)))
      else none)

/-- Python `max(d, key=d.get)` over the insertion-ordered entries: the
first key of maximal value (replacement only on strictly greater). -/
def maxKeyLoop : List (String × Rat) → String → Rat → String
  | [], best_key, _ => best_key
  | (k, v) :: rest, best_key, best_val =>
      if best_val < v then maxKeyLoop rest k v
      else maxKeyLoop rest best_key best_val

/-- `SentimentService._get_primary_emotion`. -/
def get_primary_emotion (detected_emotions : List (String × Rat))
    (sentiment_score : Rat) : String :=
  match detected_emotions with
  | (k, v) :: rest => maxKeyLoop rest k v
  | [] =>
      if (0.6 : Rat) < sentiment_score then "joy"
      else if (0.2 : Rat) < sentiment_score then "calm"
      else if (-0.2 : Rat) < sentiment_score then "neutral"
      else if (-0.6 : Rat) < sentiment_score then "sadness"
      else "anxiety"

/-- `SentimentService._calculate_intensity`. -/
def calculate_intensity (sentiment_score subjectivity : Rat)
    (detected_emotions : List (String × Rat)) : Rat :=
  let base_intensity := |sentiment_score|
  let subjectivity_boost := subjectivity * (0.3 : Rat)
  let emotion_boost :=
    if detected_emotions.isEmpty then 0
    else ((detected_emotions.map Prod.snd).sum) * (0.2 : Rat)
  min (pyRound3 (base_intensity + subjectivity_boost + emotion_boost)) 1

/-- `SentimentService._calculate_confidence`. -/
def calculate_confidence (sentiment_score subjectivity : Rat)
    (detected_emotions : List (String × Rat)) : Rat :=
  let base_confidence := (0.5 : Rat)
  let sentiment_confidence := |sentiment_score| * (0.3 : Rat)
  let emotion_confidence :=
    if detected_emotions.isEmpty then 0
    else min ((detected_emotions.map Prod.snd).sum) (0.3 : Rat)
  let subjectivity_penalty := |subjectivity - (0.5 : Rat)| * (0.1 : Rat)
  min (max (pyRound3 (base_confidence + sentiment_confidence +
    emotion_confidence - subjectivity_penalty)) (0.1 : Rat)) 1

/-- Whether keyword `kw` occurs in `s` at offset `i` bounded by regex
word boundaries `\b` (every keyword of the theme table begins and ends
with a `\w` character, so the boundary holds exactly when the adjacent
character, if any, is not `\w`). -/
def wordMatchAt (s kw : List Nat) (i : Nat) : Bool :=
  ((s.drop i).take kw.length == kw) &&
    (i == 0 || !isWordCp (s.getD (i - 1) 32)) &&
    !isWordCp (s.getD (i + kw.length) 32)

/-- `re.search` for a pattern of the shape `\b(kw1|kw2|...)\b`. -/
def reSearchWords (kws : List (List Nat)) (s : List Nat) : Bool :=
  kws.any (fun kw => (List.range (s.length + 1)).any (wordMatchAt s kw))

/-- The `theme_patterns` table of `SentimentService._extract_themes`,
with each alternation `\b(a|b|...)\b` as its list of alternatives. -/
def theme_patterns : List (String × List (List Nat)) :=
  [("growth", [s2l ("grow"), s2l ("growth"), s2l ("develop"),
     s2l ("progress"), s2l ("improve"), s2l ("better"),
     s2l ("learning"), s2l ("evolve")]),
   ("resilience", [s2l ("overcome"), s2l ("strong"), s2l ("survive"),
     s2l ("endure"), s2l ("bounce back"), s2l ("recover"),
     s2l ("resilient")]),
   ("gratitude", [s2l ("thank"), s2l ("grateful"), s2l ("appreciate"),
     s2l ("blessed"), s2l ("lucky"), s2l ("fortunate")]),
   ("self_care", [s2l ("care"), s2l ("rest"), s2l ("relax"),
     s2l ("treat myself"), s2l ("self-love"), s2l ("nurture"),
     s2l ("wellness")]),
   ("relationships", [s2l ("friend"), s2l ("family"), s2l ("love"),
     s2l ("connection"), s2l ("together"), s2l ("support"),
     s2l ("bond")]),
   ("mindfulness", [s2l ("present"), s2l ("aware"), s2l ("mindful"),
     s2l ("focus"), s2l ("breathe"), s2l ("meditate"),
     s2l ("conscious")]),
   ("goals", [s2l ("achieve"), s2l ("goal"), s2l ("dream"),
     s2l ("aspire"), s2l ("ambition"), s2l ("future"),
     s2l ("success")]),
   ("healing", [s2l ("heal"), s2l ("recover"), s2l ("mend"),
     s2l ("restore"), s2l ("peace"), s2l ("wholeness"),
     s2l ("therapy")]),
   ("creativity", [s2l ("create"), s2l ("art"), s2l ("music"),
     s2l ("write"), s2l ("express"), s2l ("imagine"),
     s2l ("inspire")]),
   ("spirituality", [s2l ("spirit"), s2l ("soul"), s2l ("meaning"),
     s2l ("purpose"), s2l ("faith"), s2l ("divine"), s2l ("sacred")])]

/-- `SentimentService._extract_themes`: the themes whose pattern
matches, in table order; `["reflection"]` when none match. -/
def extract_themes (text : List Nat) : List String :=
  let themes :=
    (theme_patterns.filter (fun tp => reSearchWords tp.2 text)).map
      Prod.fst
  if themes.isEmpty then ["reflection"] else themes

/-- The dict returned by `SentimentService.analyze_sentiment`. -/
structure SentimentResult where
  sentiment_score : Rat
  subjectivity : Rat
  primary_emotion : String
  detected_emotions : List (String × Rat)
  intensity : Rat
  themes : List String
  word_count : Nat
  confidence : Rat
deriving DecidableEq, Repr

/-- `SentimentService._fallback_analysis`: the documented neutral record
(word count of the raw, uncleaned text). -/
def fallback_analysis (text : List Nat) : SentimentResult :=
  { sentiment_score := 0, subjectivity := 0.5,
    primary_emotion := "neutral", detected_emotions := [],
    intensity := 0.1, themes := ["reflection"],
    word_count := (pySplit text).length, confidence := 0.3 }

/-- `SentimentService.analyze_sentiment`.  The `blob` argument stands
for the external `TextBlob(cleaned_text).sentiment` call, the one
statement in the `try` block that can raise: `none` selects the
`except` path (`_fallback_analysis`), `some (polarity, subjectivity)`
its result. -/
def analyze_sentiment (text : List Nat) (blob : Option (Rat × Rat)) :
    SentimentResult :=
  match blob with
  | none => fallback_analysis text
  | some (polarity, subjectivity) =>
      let cleaned_text := clean_text text
      let detected_emotions := detect_emotions cleaned_text
      let primary_emotion :=
        get_primary_emotion detected_emotions polarity
      let intensity :=
        calculate_intensity polarity subjectivity detected_emotions
      let themes := extract_themes cleaned_text
      { sentiment_score := pyRound3 polarity,
        subjectivity := pyRound3 subjectivity,
        primary_emotion := primary_emotion,
        detected_emotions := detected_emotions,
        intensity := intensity,
        themes := themes,
        word_count := (pySplit cleaned_text).length,
        confidence :=
          calculate_confidence polarity subjectivity detected_emotions }

/-! ## Concrete instances used by individual claims -/

/-- A session whose breathing skill sits just below the 800-point
threshold (experience 750, stored level 4): used by claim C5. -/
def dbC5 : SkillDb := [("mindful_breathing", ⟨4, 750, 1, true⟩)]

/-- A single existing element at `(60, 60)`: used by claim C4. -/
def existingC4 : List ElementPos := [⟨60, 60⟩]

/-- A sample stream whose first 50 draws all collide with `existingC4`
and whose 51st draw is `(400, 300)`: used by claim C4. -/
def sampleC4 : Nat → Rat × Rat :=
  fun i => if i < 50 then (60, 60) else (400, 300)

/-- A constant in-canvas sample stream: used by claim C4's witness. -/
def sampleC4W : Nat → Rat × Rat := fun _ => (60, 60)

end Havenmind

namespace Havenmind

/-! ## Association-list lemmas for `SkillDb` -/

theorem lookup_cons_self {rest : SkillDb} {n : String}
    {v : UserSkillRec} : List.lookup n ((n, v) :: rest) = some v := by
  simp [List.lookup]

theorem lookup_cons_of_ne {rest : SkillDb} {n k : String}
    {v : UserSkillRec} (h : ¬ n = k) :
    List.lookup n ((k, v) :: rest) = List.lookup n rest := by
  simp [List.lookup, beq_eq_false_iff_ne.mpr h]

theorem lookup_append_of_some {db db2 : SkillDb} {n : String}
    {r : UserSkillRec} (h : db.lookup n = some r) :
    (db ++ db2).lookup n = some r := by
  induction db with
  | nil => simp [List.lookup] at h
  | cons p rest ih =>
      obtain ⟨k, v⟩ := p
      by_cases hk : n = k
      · subst hk; rw [lookup_cons_self] at h; rw [List.cons_append,
          lookup_cons_self]; exact h
      · rw [lookup_cons_of_ne hk] at h
        rw [List.cons_append, lookup_cons_of_ne hk]; exact ih h

theorem lookup_append_of_none {db db2 : SkillDb} {n : String}
    (h : db.lookup n = none) :
    (db ++ db2).lookup n = db2.lookup n := by
  induction db with
  | nil => simp
  | cons p rest ih =>
      obtain ⟨k, v⟩ := p
      by_cases hk : n = k
      · subst hk; rw [lookup_cons_self] at h; exact absurd h (by simp)
      · rw [lookup_cons_of_ne hk] at h
        rw [List.cons_append, lookup_cons_of_ne hk]; exact ih h

theorem lookup_dbReplace_self {db : SkillDb} {n : String}
    {r r2 : UserSkillRec} (h : db.lookup n = some r) :
    (dbReplace db n r2).lookup n = some r2 := by
  induction db with
  | nil => simp [List.lookup] at h
  | cons p rest ih =>
      obtain ⟨k, v⟩ := p
      by_cases hk : k = n
      · subst hk
        simp only [dbReplace, beq_self_eq_true, if_true, lookup_cons_self]
      · have hnk : ¬ n = k := fun e => hk e.symm
        rw [lookup_cons_of_ne hnk] at h
        simp only [dbReplace, beq_eq_false_iff_ne.mpr hk,
          Bool.false_eq_true, if_false]
        rw [lookup_cons_of_ne hnk]
        exact ih h

theorem lookup_dbReplace_of_none {db : SkillDb} {n : String}
    {r2 : UserSkillRec} (h : db.lookup n = none) :
    (dbReplace db n r2).lookup n = none := by
  induction db with
  | nil => simp [dbReplace]
  | cons p rest ih =>
      obtain ⟨k, v⟩ := p
      by_cases hk : k = n
      · subst hk; rw [lookup_cons_self] at h; exact absurd h (by simp)
      · have hnk : ¬ n = k := fun e => hk e.symm
        rw [lookup_cons_of_ne hnk] at h
        simp only [dbReplace, beq_eq_false_iff_ne.mpr hk,
          Bool.false_eq_true, if_false]
        rw [lookup_cons_of_ne hnk]
        exact ih h

theorem lookup_dbReplace_of_ne {db : SkillDb} {m n : String}
    {r2 : UserSkillRec} (h : ¬ m = n) :
    (dbReplace db n r2).lookup m = db.lookup m := by
  induction db with
  | nil => simp [dbReplace]
  | cons p rest ih =>
      obtain ⟨k, v⟩ := p
      by_cases hk : k = n
      · subst hk
        simp only [dbReplace, beq_self_eq_true, if_true]
        rw [lookup_cons_of_ne h, lookup_cons_of_ne h]
      · simp only [dbReplace, beq_eq_false_iff_ne.mpr hk,
          Bool.false_eq_true, if_false]
        by_cases hmk : m = k
        · subst hmk; rw [lookup_cons_self, lookup_cons_self]
        · rw [lookup_cons_of_ne hmk, lookup_cons_of_ne hmk]; exact ih

theorem lookup_map_fst_contains {db : SkillDb} {n : String}
    (h : db.lookup n = none) : (db.map Prod.fst).contains n = false := by
  induction db with
  | nil => simp
  | cons p rest ih =>
      obtain ⟨k, v⟩ := p
      by_cases hk : n = k
      · subst hk; rw [lookup_cons_self] at h; exact absurd h (by simp)
      · rw [lookup_cons_of_ne hk] at h
        simpa [List.contains_cons, beq_eq_false_iff_ne.mpr hk] using ih h

/-! ## Mastery-level lemmas -/

theorem thr0 : thresholds.getD 0 0 = 0 := rfl

theorem thr1 : thresholds.getD 1 0 = 50 := rfl

theorem thr2 : thresholds.getD 2 0 = 150 := rfl

theorem thr3 : thresholds.getD 3 0 = 300 := rfl

theorem thr4 : thresholds.getD 4 0 = 500 := rfl

theorem thr5 : thresholds.getD 5 0 = 800 := rfl

theorem calculate_mastery_level_eq_specLargestIdx (e : Int)
    (h : 0 ≤ e) : calculate_mastery_level e = specLargestIdx e := by
  have hspec : ∀ k : Nat, k ≤ 5 → thresholds.getD k 0 ≤ e →
      (∀ n : Nat, k < n → n ≤ 5 → ¬ thresholds.getD n 0 ≤ e) →
      specLargestIdx e = k := by
    intro k hk hPk hAbove
    have hl : thresholds.length - 1 = 5 := rfl
    rw [specLargestIdx, hl, Nat.findGreatest_eq_iff]
    exact ⟨hk, fun _ => hPk, fun n h1 h2 => hAbove n h1 h2⟩
  rcases lt_or_le e 50 with hb | hb
  · rw [hspec 0 (by omega) (by rw [thr0]; exact h)
      (by intro n h1 h2; interval_cases n <;>
        simp only [thr1, thr2, thr3, thr4, thr5] <;> omega)]
    simp only [calculate_mastery_level, thresholds, masteryLoop,
      List.length_cons, List.length_nil]
    split_ifs <;> omega
  · rcases lt_or_le e 150 with hc | hc
    · rw [hspec 1 (by omega) (by rw [thr1]; omega)
        (by intro n h1 h2; interval_cases n <;>
          simp only [thr2, thr3, thr4, thr5] <;> omega)]
      simp only [calculate_mastery_level, thresholds, masteryLoop,
        List.length_cons, List.length_nil]
      split_ifs <;> omega
    · rcases lt_or_le e 300 with hd | hd
      · rw [hspec 2 (by omega) (by rw [thr2]; omega)
          (by intro n h1 h2; interval_cases n <;>
            simp only [thr3, thr4, thr5] <;> omega)]
        simp only [calculate_mastery_level, thresholds, masteryLoop,
          List.length_cons, List.length_nil]
        split_ifs <;> omega
      · rcases lt_or_le e 500 with he | he
        · rw [hspec 3 (by omega) (by rw [thr3]; omega)
            (by intro n h1 h2; interval_cases n <;>
              simp only [thr4, thr5] <;> omega)]
          simp only [calculate_mastery_level, thresholds, masteryLoop,
            List.length_cons, List.length_nil]
          split_ifs <;> omega
        · rcases lt_or_le e 800 with hf | hf
          · rw [hspec 4 (by omega) (by rw [thr4]; omega)
              (by intro n h1 h2; interval_cases n <;>
                simp only [thr5] <;> omega)]
            simp only [calculate_mastery_level, thresholds, masteryLoop,
              List.length_cons, List.length_nil]
            split_ifs <;> omega
          · rw [hspec 5 (by omega) (by rw [thr5]; omega)
              (by intro n h1 h2; omega)]
            simp only [calculate_mastery_level, thresholds, masteryLoop,
              List.length_cons, List.length_nil]
            split_ifs <;> omega

theorem calculate_mastery_level_mono {a b : Int} (h : a ≤ b) :
    calculate_mastery_level a ≤ calculate_mastery_level b := by
  simp only [calculate_mastery_level, thresholds, masteryLoop,
    List.length_cons, List.length_nil]
  split_ifs <;> omega

theorem experience_gained_nonneg {d : Int} {c : Option Int}
    (hd : 0 ≤ d) (hc : ratingOk c) :
    0 ≤ calculate_experience_gained d c := by
  cases c with
  | none => simp only [calculate_experience_gained]; omega
  | some r =>
      have hr := hc r rfl
      have hr0 : (r == 0) = false := by
        simp only [beq_eq_false_iff_ne]; omega
      simp only [calculate_experience_gained, hr0, Bool.false_eq_true,
        if_false]
      omega

/-! ## Unlock-loop lemmas (towards claims C7 and C9) -/

theorem unlocksLoop_preserves_unlocked {hist : List EmotionEntry}
    {js : List Unit} {L : List String} {db : SkillDb} {acc : List String}
    {n : String}
    (h : ((db.lookup n).map (·.unlocked)) = some true) :
    (((unlocksLoop hist js L db acc).1.lookup n).map (·.unlocked)) =
      some true := by
  induction L generalizing db acc with
  | nil => simpa [unlocksLoop] using h
  | cons m rest ih =>
      obtain ⟨r, hr, hru⟩ : ∃ r, db.lookup n = some r ∧
          r.unlocked = true := by
        cases hq : db.lookup n with
        | none => rw [hq] at h; simp at h
        | some r => exact ⟨r, rfl, by rw [hq] at h; simpa using h⟩
      simp only [unlocksLoop]
      split_ifs with hp
      · cases hm : db.lookup m with
        | none =>
            apply ih
            rw [lookup_append_of_some hr]
            simp [hru]
        | some r2 =>
            by_cases hu : r2.unlocked = true
            · simp only [hu, if_true]
              exact ih h
            · simp only [hu, Bool.false_eq_true, if_false]
              apply ih
              by_cases hnm : n = m
              · subst hnm
                rw [lookup_dbReplace_self hm]
                simp
              · rw [lookup_dbReplace_of_ne hnm, hr]
                simp [hru]
      · exact ih h

theorem unlocksLoop_sets_unlocked {hist : List EmotionEntry}
    {js : List Unit} {L : List String} {db : SkillDb} {acc : List String}
    {n : String} (hn : n ∈ L)
    (hp : should_unlock_skill n hist js = true) :
    (((unlocksLoop hist js L db acc).1.lookup n).map (·.unlocked)) =
      some true := by
  induction L generalizing db acc with
  | nil => cases hn
  | cons m rest ih =>
      by_cases hnm : n = m
      · subst hnm
        simp only [unlocksLoop, hp, if_true]
        cases hm : db.lookup n with
        | none =>
            apply unlocksLoop_preserves_unlocked
            rw [lookup_append_of_none hm, lookup_cons_self]
            rfl
        | some r =>
            by_cases hu : r.unlocked = true
            · simp only [hu, if_true]
              apply unlocksLoop_preserves_unlocked
              rw [hm]
              simp [hu]
            · simp only [hu, Bool.false_eq_true, if_false]
              apply unlocksLoop_preserves_unlocked
              rw [lookup_dbReplace_self hm]
              rfl
      · have hn2 : n ∈ rest := by
          cases List.mem_cons.mp hn with
          | inl h2 => exact absurd h2 hnm
          | inr h2 => exact h2
        simp only [unlocksLoop]
        split_ifs with hpm
        · cases hm : db.lookup m with
          | none => exact ih hn2
          | some r =>
              by_cases hu : r.unlocked = true
              · simp only [hu, if_true]; exact ih hn2
              · simp only [hu, Bool.false_eq_true, if_false]
                exact ih hn2
        · exact ih hn2

theorem unlocksLoop_noop {hist : List EmotionEntry} {js : List Unit}
    {L : List String} {db : SkillDb} {acc : List String}
    (h : ∀ n ∈ L, should_unlock_skill n hist js = true →
      ((db.lookup n).map (·.unlocked)) = some true) :
    unlocksLoop hist js L db acc = (db, acc) := by
  induction L generalizing acc with
  | nil => rfl
  | cons m rest ih =>
      simp only [unlocksLoop]
      split_ifs with hp
      · have hm := h m (List.mem_cons_self m rest) hp
        obtain ⟨r, hr, hru⟩ : ∃ r, db.lookup m = some r ∧
            r.unlocked = true := by
          cases hq : db.lookup m with
          | none => rw [hq] at hm; simp at hm
          | some r => exact ⟨r, rfl, by rw [hq] at hm; simpa using hm⟩
        rw [hr]
        simp only [hru, if_true]
        exact ih (fun n hn hpn => h n (List.mem_cons_of_mem m hn) hpn)
      · exact ih (fun n hn hpn => h n (List.mem_cons_of_mem m hn) hpn)

theorem unlocksLoop_created_unlocked {hist : List EmotionEntry}
    {js : List Unit} {L : List String} {db : SkillDb} {acc : List String}
    {n : String}
    (h : ∀ r, db.lookup n = some r → r.unlocked = true) :
    ∀ r, (unlocksLoop hist js L db acc).1.lookup n = some r →
      r.unlocked = true := by
  induction L generalizing db acc with
  | nil => simpa [unlocksLoop] using h
  | cons m rest ih =>
      simp only [unlocksLoop]
      split_ifs with hp
      · cases hm : db.lookup m with
        | none =>
            apply ih
            intro r hr
            cases hq : db.lookup n with
            | some r0 =>
                rw [lookup_append_of_some hq] at hr
                injection hr with h2
                exact h2 ▸ h r0 hq
            | none =>
                rw [lookup_append_of_none hq] at hr
                by_cases hnm : n = m
                · subst hnm
                  rw [lookup_cons_self] at hr
                  injection hr with h2
                  rw [← h2]
                  rfl
                · rw [lookup_cons_of_ne hnm] at hr
                  simp [List.lookup] at hr
        | some r2 =>
            by_cases hu : r2.unlocked = true
            · simp only [hu, if_true]
              exact ih h
            · simp only [hu, Bool.false_eq_true, if_false]
              apply ih
              intro r hr
              by_cases hnm : n = m
              · subst hnm
                rw [lookup_dbReplace_self hm] at hr
                injection hr with h2
                rw [← h2]
              · rw [lookup_dbReplace_of_ne hnm] at hr
                exact h r hr
      · exact ih h

/-! ## Creation-loop lemmas (towards claims C3 and C9) -/

theorem createDefaultsLoop_preserves {names0 L : List String}
    {db : SkillDb} {n : String} {r : UserSkillRec}
    (h : db.lookup n = some r) :
    (createDefaultsLoop names0 L db).lookup n = some r := by
  induction L generalizing db with
  | nil => simpa [createDefaultsLoop] using h
  | cons m rest ih =>
      simp only [createDefaultsLoop]
      split_ifs with hc
      · exact ih h
      · exact ih (lookup_append_of_some h)

theorem createDefaultsLoop_creates {names0 L : List String}
    {db : SkillDb} {n : String} (hn : n ∈ L)
    (hc : names0.contains n = false) (h : db.lookup n = none) :
    (createDefaultsLoop names0 L db).lookup n =
      some (defaultSkillRec n) := by
  induction L generalizing db with
  | nil => cases hn
  | cons m rest ih =>
      by_cases hnm : n = m
      · subst hnm
        simp only [createDefaultsLoop, hc, Bool.false_eq_true, if_false]
        apply createDefaultsLoop_preserves
        rw [lookup_append_of_none h, lookup_cons_self]
      · have hn2 : n ∈ rest := by
          cases List.mem_cons.mp hn with
          | inl h2 => exact absurd h2 hnm
          | inr h2 => exact h2
        simp only [createDefaultsLoop]
        split_ifs with hcm
        · exact ih hn2 h
        · apply ih hn2
          rw [lookup_append_of_none h, lookup_cons_of_ne hnm]
          rfl

/-! ## Invariant-preservation helpers (towards claims C3 and C6) -/

theorem skillInv_zero_exp (r : UserSkillRec)
    (he : r.experience_points = 0) (hl : r.mastery_level = 0) :
    skillInv r := by
  constructor
  · rw [he]
  · rw [he, hl]
    decide

theorem dbInv_append_single {db : SkillDb} {m : String}
    {r0 : UserSkillRec} (h : dbInv db) (hr : skillInv r0) :
    dbInv (db ++ [(m, r0)]) := by
  intro n r hl
  cases hq : db.lookup n with
  | some r1 =>
      rw [lookup_append_of_some hq] at hl
      injection hl with h2
      exact h2 ▸ h n r1 hq
  | none =>
      rw [lookup_append_of_none hq] at hl
      by_cases hnm : n = m
      · subst hnm
        rw [lookup_cons_self] at hl
        injection hl with h2
        exact h2 ▸ hr
      · rw [lookup_cons_of_ne hnm] at hl
        simp [List.lookup] at hl

theorem dbInv_replace {db : SkillDb} {m : String} {r2 : UserSkillRec}
    (h : dbInv db) (hr : skillInv r2) : dbInv (dbReplace db m r2) := by
  intro n r hl
  by_cases hnm : n = m
  · subst hnm
    cases hq : db.lookup n with
    | none => rw [lookup_dbReplace_of_none hq] at hl; cases hl
    | some r1 =>
        rw [lookup_dbReplace_self hq] at hl
        injection hl with h2
        exact h2 ▸ hr
  · rw [lookup_dbReplace_of_ne hnm] at hl
    exact h n r hl

theorem get_user_skills_preserves_dbInv {db : SkillDb} (h : dbInv db) :
    dbInv (get_user_skills db) := by
  rw [get_user_skills]
  generalize SKILLS_LIST = L
  generalize db.map Prod.fst = names0
  induction L generalizing db with
  | nil => simpa [createDefaultsLoop] using h
  | cons m rest ih =>
      simp only [createDefaultsLoop]
      split_ifs with hc
      · exact ih h
      · exact ih (dbInv_append_single h
          (skillInv_zero_exp (defaultSkillRec m) rfl rfl))

theorem unlocksLoop_preserves_dbInv {hist : List EmotionEntry}
    {js : List Unit} {L : List String} {db : SkillDb}
    {acc : List String} (h : dbInv db) :
    dbInv (unlocksLoop hist js L db acc).1 := by
  induction L generalizing db acc with
  | nil => simpa [unlocksLoop] using h
  | cons m rest ih =>
      simp only [unlocksLoop]
      split_ifs with hp
      · cases hm : db.lookup m with
        | none =>
            exact ih (dbInv_append_single h
              (skillInv_zero_exp unlockedSkillRec rfl rfl))
        | some r =>
            by_cases hu : r.unlocked = true
            · simp only [hu, if_true]
              exact ih h
            · simp only [hu, Bool.false_eq_true, if_false]
              apply ih
              apply dbInv_replace h
              have h2 := h m r hm
              exact ⟨h2.1, h2.2⟩
      · exact ih h

theorem update_skill_unlocks_preserves_dbInv {db : SkillDb}
    {hist : List EmotionEntry} {js : List Unit} (h : dbInv db) :
    dbInv (update_skill_unlocks db hist js).1 :=
  unlocksLoop_preserves_dbInv h

theorem skillInv_updated (r0 : UserSkillRec) (g : Int)
    (he : 0 ≤ r0.experience_points + g) :
    skillInv { r0 with
      experience_points := r0.experience_points + g,
      times_practiced := r0.times_practiced + 1,
      mastery_level :=
        min (calculate_mastery_level (r0.experience_points + g))
          (SKILL_MASTERY_LEVELS - 1) } := by
  refine ⟨he, ?_⟩
  show min (calculate_mastery_level (r0.experience_points + g))
    (SKILL_MASTERY_LEVELS - 1) = _
  rw [calculate_mastery_level_eq_specLargestIdx _ he]

theorem practice_updated_inv {db : SkillDb} {n : String} {d : Int}
    {c : Option Int} (hd : 0 ≤ d) (hc : ratingOk c) (h : dbInv db) :
    dbInv (practice_skill db n d c).1 ∧
    (∀ r, (practice_skill db n d c).1.lookup n = some r →
      r.experience_points = expOf db n + calculate_experience_gained d c ∧
      r.mastery_level =
        min (calculate_mastery_level r.experience_points)
          (SKILL_MASTERY_LEVELS - 1)) := by
  have hg := experience_gained_nonneg hd hc
  cases hm : db.lookup n with
  | none =>
      have he : 0 ≤ unlockedSkillRec.experience_points +
          calculate_experience_gained d c := by
        show (0 : Int) ≤ 0 + _
        omega
      constructor
      · simp only [practice_skill, hm]
        exact dbInv_append_single h (skillInv_updated unlockedSkillRec _ he)
      · intro r hr
        simp only [practice_skill, hm] at hr
        rw [lookup_append_of_none hm, lookup_cons_self] at hr
        injection hr with h2
        subst h2
        refine ⟨?_, rfl⟩
        simp [expOf, hm, unlockedSkillRec]
  | some r0 =>
      have he0 : 0 ≤ r0.experience_points := (h n r0 hm).1
      have he : 0 ≤ r0.experience_points +
          calculate_experience_gained d c := by omega
      constructor
      · simp only [practice_skill, hm]
        exact dbInv_replace h (skillInv_updated r0 _ he)
      · intro r hr
        simp only [practice_skill, hm] at hr
        rw [lookup_dbReplace_self hm] at hr
        injection hr with h2
        subst h2
        refine ⟨?_, rfl⟩
        simp [expOf, hm]

/-! ## Rounding and sentiment lemmas (towards claim C1) -/

theorem roundHalfEven_le {x : Rat} {n : Int} (h : x ≤ (n : Rat)) :
    roundHalfEven x ≤ n := by
  unfold roundHalfEven
  dsimp only
  have hf : (⌊x⌋ : Rat) ≤ x := Int.floor_le x
  have hfn : ⌊x⌋ ≤ n := by
    calc ⌊x⌋ ≤ ⌊(n : Rat)⌋ := Int.floor_mono h
    _ = n := Int.floor_intCast n
  split_ifs with h1 h2 h3
  · exact hfn
  · have hlt : (⌊x⌋ : Rat) < (n : Rat) := by
      have : (⌊x⌋ : Rat) + 1/2 < x := by linarith
      linarith
    have : ⌊x⌋ < n := by exact_mod_cast hlt
    omega
  · exact hfn
  · have h4 : x - (⌊x⌋ : Rat) = 1/2 :=
      le_antisymm (not_lt.mp h2) (not_lt.mp h1)
    have hlt : (⌊x⌋ : Rat) < (n : Rat) := by linarith
    have : ⌊x⌋ < n := by exact_mod_cast hlt
    omega

theorem roundHalfEven_ge {x : Rat} {n : Int} (h : (n : Rat) ≤ x) :
    n ≤ roundHalfEven x := by
  unfold roundHalfEven
  dsimp only
  have hnf : n ≤ ⌊x⌋ := Int.le_floor.mpr h
  split_ifs <;> omega

theorem pyRound3_bounds {x : Rat} (h1 : -1 ≤ x) (h2 : x ≤ 1) :
    -1 ≤ pyRound3 x ∧ pyRound3 x ≤ 1 := by
  unfold pyRound3
  have hle : roundHalfEven (x * 1000) ≤ 1000 :=
    roundHalfEven_le (by push_cast; linarith)
  have hge : (-1000 : Int) ≤ roundHalfEven (x * 1000) :=
    roundHalfEven_ge (by push_cast; linarith)
  have hleQ : (roundHalfEven (x * 1000) : Rat) ≤ 1000 := by
    exact_mod_cast hle
  have hgeQ : (-1000 : Rat) ≤ (roundHalfEven (x * 1000) : Rat) := by
    exact_mod_cast hge
  constructor <;> [linarith; linarith]

theorem extract_themes_ne_nil (text : List Nat) :
    extract_themes text ≠ [] := by
  unfold extract_themes
  dsimp only
  split_ifs with h
  · simp
  · intro hc
    rw [hc] at h
    exact h rfl

/-! ## Lower-casing lemmas (towards claim C10) -/

theorem lowerCp_idem (c : Nat) : lowerCp (lowerCp c) = lowerCp c := by
  unfold lowerCp
  split_ifs <;> omega

theorem pyLower_idem (s : List Nat) : pyLower (pyLower s) = pyLower s := by
  induction s with
  | nil => rfl
  | cons c rest ih =>
      show lowerCp (lowerCp c) :: pyLower (pyLower rest) = _
      rw [lowerCp_idem, ih]
      rfl

/-! ## Placement-loop characterization (towards claim C4) -/

theorem positionLoop_eq (existing_elements : List ElementPos)
    (sample : Nat → Rat × Rat) :
    ∀ (attempts i : Nat),
      positionLoop existing_elements sample i attempts =
        match (List.range' i attempts).find? (fun j =>
            !(existing_elements.any
              (tooCloseTo (sample j).1 (sample j).2))) with
        | some j => sample j
        | none => sample (i + attempts) := by
  intro attempts
  induction attempts with
  | zero => intro i; simp [positionLoop, List.range']
  | succ k ih =>
      intro i
      rw [List.range'_succ]
      by_cases hc :
          existing_elements.any (tooCloseTo (sample i).1 (sample i).2) = true
      · rw [List.find?_cons_of_neg _ (by simp [hc])]
        show positionLoop existing_elements sample i (k + 1) = _
        simp only [positionLoop, hc, if_true]
        rw [ih (i + 1)]
        have : i + 1 + k = i + (k + 1) := by omega
        rw [this]
      · rw [List.find?_cons_of_pos _ (by simp [hc])]
        show positionLoop existing_elements sample i (k + 1) = _
        simp only [positionLoop, hc, Bool.false_eq_true, if_false]

/-! ## Claim C2 -/

/-- Claim C2: for every duration (in minutes) and every optional
completion rating in 1..5, the experience awarded by one practice event
equals `min(duration*2 + (rating*5 if a rating is given, else 0), 100)`.
Confirmed: this is exactly `_calculate_experience_gained` on that input
domain (the domain matters only in that a rating of 0 would be falsy in
Python; ratings 1..5 are all truthy). -/
theorem claim_C2_experience_formula (duration_minutes : Int)
    (completion_rating : Option Int) (h : ratingOk completion_rating) :
    calculate_experience_gained duration_minutes completion_rating =
      min (duration_minutes * 2 +
        (match completion_rating with
         | some rating => rating * 5
         | none => 0)) 100 := by
  cases completion_rating with
  | none => simp [calculate_experience_gained]
  | some r =>
      have h1 := h r rfl
      have hr0 : (r == 0) = false := by
        simp only [beq_eq_false_iff_ne]; omega
      simp [calculate_experience_gained, hr0]

/-- Witness for claim C2, at the spec's own scenario: a 10-minute
practice with rating 5 awards exactly 45 experience points. -/
theorem claim_C2_witness :
    calculate_experience_gained 10 (some 5) =
      min (10 * 2 + 5 * 5) 100 ∧
    calculate_experience_gained 10 (some 5) = 45 :=
  ⟨claim_C2_experience_formula 10 (some 5)
      (by intro r hr; injection hr with h2; omega),
   by decide⟩

/-! ## Claim C8 -/

/-- Claim C8: below the maximum tier, progress-to-next-level equals
`(experience - thresholds[level]) / (thresholds[level+1] -
thresholds[level])` clamped to at most 1.0; at
`experience = thresholds[level]` it is 0.0; at
`experience = thresholds[level+1] - 1` it is strictly below 1.0; at the
maximum tier it is 1.0.  Confirmed against
`_calculate_progress_to_next`. -/
theorem claim_C8_progress_to_next (lvl : Nat) (e : Int) (tp : Nat)
    (ul : Bool) :
    (lvl < SKILL_MASTERY_LEVELS - 1 →
      calculate_progress_to_next ⟨lvl, e, tp, ul⟩ =
        min 1 (((e - thresholds.getD lvl 0 : Int) : Rat) /
          ((thresholds.getD (lvl + 1) 0 - thresholds.getD lvl 0 :
            Int) : Rat)) ∧
      calculate_progress_to_next ⟨lvl, thresholds.getD lvl 0, tp, ul⟩ =
        0 ∧
      calculate_progress_to_next
        ⟨lvl, thresholds.getD (lvl + 1) 0 - 1, tp, ul⟩ < 1) ∧
    (SKILL_MASTERY_LEVELS - 1 ≤ lvl →
      calculate_progress_to_next ⟨lvl, e, tp, ul⟩ = 1) := by
  constructor
  · intro hl
    have hl4 : lvl < 4 := by
      simpa [SKILL_MASTERY_LEVELS] using hl
    refine ⟨?_, ?_, ?_⟩
    · unfold calculate_progress_to_next
      dsimp only
      rw [if_neg (by simp only [SKILL_MASTERY_LEVELS]; omega)]
    · unfold calculate_progress_to_next
      dsimp only
      rw [if_neg (by simp only [SKILL_MASTERY_LEVELS]; omega)]
      simp
    · interval_cases lvl <;>
        (unfold calculate_progress_to_next
         dsimp only
         rw [if_neg (by simp only [SKILL_MASTERY_LEVELS]; omega)]
         simp only [Nat.reduceAdd, thr0, thr1, thr2, thr3, thr4]
         norm_num [min_def])
  · intro hl
    unfold calculate_progress_to_next
    dsimp only
    rw [if_pos hl]

/-- Witness for claim C8 at level 1 (thresholds 50 and 150) and at the
maximum tier. -/
theorem claim_C8_witness :
    calculate_progress_to_next ⟨1, thresholds.getD 1 0, 3, true⟩ = 0 ∧
    calculate_progress_to_next
      ⟨1, thresholds.getD 2 0 - 1, 3, true⟩ < 1 ∧
    calculate_progress_to_next ⟨4, 900, 3, true⟩ = 1 :=
  ⟨((claim_C8_progress_to_next 1 0 3 true).1 (by decide)).2.1,
   ((claim_C8_progress_to_next 1 0 3 true).1 (by decide)).2.2,
   (claim_C8_progress_to_next 4 900 3 true).2 (by decide)⟩

/-! ## Claim C5 -/

/-- Counterexample to claim C5 as stated.  Claim C5 says `level_up` is
true if and only if the returned `new_level` is strictly greater than
the returned `old_level`.  At experience 750 and stored level 4,
practicing for 25 minutes brings the accumulated experience to 800, the
recomputed (unclamped) level to 5, so the source sets `level_up = True`;
but the stored and returned `new_level` is clamped to
`SKILL_MASTERY_LEVELS - 1 = 4 = old_level`.  So `level_up` is true while
`new_level = old_level`. -/
theorem claim_C5_counterexample :
    (practice_skill dbC5 ("mindful_breathing") 25 none).2.level_up =
      true ∧
    (practice_skill dbC5 ("mindful_breathing") 25 none).2.new_level =
      (practice_skill dbC5 ("mindful_breathing") 25 none).2.old_level :=
  ⟨rfl, rfl⟩

/-- Claim C5, amended as the counterexample forces: `level_up` is true
if and only if the UNCLAMPED recomputed mastery level of the updated
experience exceeds the returned `old_level`; in particular a returned
`new_level` strictly greater than `old_level` still implies `level_up`,
but `level_up` can also be true with `new_level = old_level` when the
recomputed level is clamped at the top tier. -/
theorem claim_C5_amended (db : SkillDb) (skill_name : String)
    (duration_minutes : Int) (completion_rating : Option Int) :
    ((practice_skill db skill_name duration_minutes
        completion_rating).2.level_up = true ↔
      (practice_skill db skill_name duration_minutes
          completion_rating).2.old_level <
        calculate_mastery_level
          (practice_skill db skill_name duration_minutes
            completion_rating).2.total_experience) ∧
    ((practice_skill db skill_name duration_minutes
        completion_rating).2.old_level <
      (practice_skill db skill_name duration_minutes
        completion_rating).2.new_level →
      (practice_skill db skill_name duration_minutes
        completion_rating).2.level_up = true) := by
  cases hm : db.lookup skill_name with
  | none =>
      constructor
      · simp [practice_skill, hm]
      · simp only [practice_skill, hm]
        intro h2
        rw [decide_eq_true_iff]
        omega
  | some r =>
      constructor
      · simp [practice_skill, hm]
      · simp only [practice_skill, hm]
        intro h2
        rw [decide_eq_true_iff]
        omega

/-- Witness for claim C5 (amended): a first 100-minute practice of a
fresh skill gains 100 experience (level 0 → 1 < 4), and the implication
direction of the amended claim reports the level-up. -/
theorem claim_C5_witness :
    (practice_skill [] ("mindful_breathing") 100 none).2.level_up =
      true ∧
    (practice_skill [] ("mindful_breathing") 100 none).2.old_level <
      (practice_skill [] ("mindful_breathing") 100 none).2.new_level :=
  ⟨(claim_C5_amended [] ("mindful_breathing") 100 none).2 (by decide),
   by decide⟩

/-! ## Claim C7 -/

/-- Claim C7: unlock evaluation is idempotent.  Running
`update_skill_unlocks` a second time with the identical
emotion/journal history leaves the whole skill table unchanged (in
particular every `unlocked` flag) and reports an empty list of newly
unlocked skills.  Confirmed: after the first run, every skill whose
unlock predicate holds has an existing row with `unlocked=True`, so the
second run takes the no-op branch for every skill. -/
theorem claim_C7_unlock_idempotent (db : SkillDb)
    (emotion_history : List EmotionEntry)
    (journal_entries : List Unit) :
    update_skill_unlocks
        (update_skill_unlocks db emotion_history journal_entries).1
        emotion_history journal_entries =
      ((update_skill_unlocks db emotion_history journal_entries).1,
        ([] : List String)) := by
  apply unlocksLoop_noop
  intro n hn hp
  exact unlocksLoop_sets_unlocked hn hp

/-! ## Claim C9 -/

/-- Counterexample to claim C9 as stated.  Claim C9 says every lazily
created `UserSkill` row is created with `unlocked=false` except the
designated `"mindful_breathing"` skill.  But `practice_skill` creates
the missing row for ANY skill with `unlocked=True`: practicing
`"gratitude_practice"` in a fresh session creates its row already
unlocked, although the claim requires `unlocked=false` for it. -/
theorem claim_C9_counterexample :
    (([] : SkillDb).lookup ("gratitude_practice") = none) ∧
    (((practice_skill [] ("gratitude_practice") 10 none).1.lookup
        ("gratitude_practice")).map (·.unlocked)) = some true ∧
    ("gratitude_practice" == "mindful_breathing") = false := by
  refine ⟨rfl, rfl, by decide⟩

/-- Claim C9, amended as the counterexample forces: only
`get_user_skills` creates missing rows with
`unlocked = (skill_name == "mindful_breathing")`; the other two lazy
creation sites — `practice_skill` and `update_skill_unlocks` — create
the missing row with `unlocked=True` (for any skill name). -/
theorem claim_C9_amended :
    (∀ (db : SkillDb) (n : String), db.lookup n = none →
      n ∈ SKILLS_LIST →
      (get_user_skills db).lookup n = some (defaultSkillRec n)) ∧
    (∀ (db : SkillDb) (n : String) (d : Int) (c : Option Int),
      db.lookup n = none →
      ∀ r, (practice_skill db n d c).1.lookup n = some r →
        r.unlocked = true) ∧
    (∀ (db : SkillDb) (hist : List EmotionEntry) (js : List Unit)
      (n : String), db.lookup n = none →
      ∀ r, (update_skill_unlocks db hist js).1.lookup n = some r →
        r.unlocked = true) := by
  refine ⟨?_, ?_, ?_⟩
  · intro db n hnone hmem
    exact createDefaultsLoop_creates hmem
      (lookup_map_fst_contains hnone) hnone
  · intro db n d c hnone r hr
    simp only [practice_skill, hnone] at hr
    rw [lookup_append_of_none hnone, lookup_cons_self] at hr
    injection hr with h2
    rw [← h2]
    rfl
  · intro db hist js n hnone r hr
    exact unlocksLoop_created_unlocked
      (fun r0 h0 => absurd (hnone ▸ h0) (by simp)) r hr

/-- Witness for claim C9 (amended): a fresh session, the
`get_user_skills` part at `"gratitude_practice"` (created locked) and at
`"mindful_breathing"` (created unlocked), and the `practice_skill` part.
-/
theorem claim_C9_witness :
    (get_user_skills []).lookup ("gratitude_practice") =
      some (defaultSkillRec ("gratitude_practice")) ∧
    (get_user_skills []).lookup ("mindful_breathing") =
      some (defaultSkillRec ("mindful_breathing")) ∧
    ∀ r, (practice_skill [] ("self_compassion") 10 none).1.lookup
        ("self_compassion") = some r → r.unlocked = true :=
  ⟨claim_C9_amended.1 [] ("gratitude_practice") rfl (by decide),
   claim_C9_amended.1 [] ("mindful_breathing") rfl (by decide),
   claim_C9_amended.2.1 [] ("self_compassion") 10 none rfl⟩

/-! ## Claim C3 -/

/-- Claim C3: after every skill-progression operation, every stored
`UserSkill` row has non-negative experience and a mastery level equal to
the largest index `i` with `experience >= thresholds[i]`
(`specLargestIdx`, written from the spec's words), clamped to
`SKILL_MASTERY_LEVELS - 1 = 4`.  Confirmed, as preservation of the
invariant `dbInv` by each of the three operations, on the claims' input
domain (non-negative durations, ratings 1..5): rows created by any
operation carry experience 0 and level 0, and `practice_skill`
recomputes the stored level as `min(_calculate_mastery_level(exp), 4)`,
which equals the clamped largest qualifying index. -/
theorem claim_C3_mastery_invariant :
    (∀ db : SkillDb, dbInv db → dbInv (get_user_skills db)) ∧
    (∀ (db : SkillDb) (hist : List EmotionEntry) (js : List Unit),
      dbInv db → dbInv (update_skill_unlocks db hist js).1) ∧
    (∀ (db : SkillDb) (n : String) (d : Int) (c : Option Int),
      0 ≤ d → ratingOk c → dbInv db →
      dbInv (practice_skill db n d c).1) :=
  ⟨fun _ h => get_user_skills_preserves_dbInv h,
   fun _ _ _ h => update_skill_unlocks_preserves_dbInv h,
   fun _ _ _ _ hd hc h => (practice_updated_inv hd hc h).1⟩

/-- Witness for claim C3: practicing a fresh skill for 30 minutes with
rating 4 in an empty session yields a table satisfying the invariant
(the single row has `30*2 + 4*5 = 80` experience and stored level
`min(specLargestIdx(80), 4) = 1`). -/
theorem claim_C3_witness :
    dbInv (practice_skill [] ("self_compassion") 30 (some 4)).1 ∧
    levelOf (practice_skill [] ("self_compassion") 30 (some 4)).1
      ("self_compassion") = min (specLargestIdx 80) 4 :=
  ⟨claim_C3_mastery_invariant.2.2 [] ("self_compassion") 30 (some 4)
      (by norm_num)
      (by intro r hr; injection hr with h2; omega)
      (by intro n r h; simp [List.lookup] at h),
   by decide⟩

/-! ## Claim C6 -/

/-- Claim C6: across any sequence of practice calls for one skill (on
the claims' input domain: non-negative durations, ratings 1..5, and a
starting table satisfying the mastery invariant, e.g. any table the
operations themselves produced), the stored experience points never
decrease and the stored mastery level never decreases; the level is the
monotone function `min(specLargestIdx(experience), 4)` of the
accumulated experience throughout (that is `dbInv`, preserved at every
step, so the single-step monotonicity applies between every two
consecutive calls).  Confirmed. -/
theorem claim_C6_monotonicity (db : SkillDb) (skill_name : String)
    (inputs : List (Int × Option Int))
    (hIn : ∀ p ∈ inputs, 0 ≤ p.1 ∧ ratingOk p.2) (hInv : dbInv db) :
    expOf db skill_name ≤ expOf (practiceSeq db skill_name inputs)
      skill_name ∧
    levelOf db skill_name ≤ levelOf (practiceSeq db skill_name inputs)
      skill_name ∧
    dbInv (practiceSeq db skill_name inputs) := by
  induction inputs generalizing db with
  | nil => exact ⟨le_refl _, le_refl _, hInv⟩
  | cons p rest ih =>
      obtain ⟨d, c⟩ := p
      have hdc := hIn (d, c) (List.mem_cons_self _ _)
      have hd : 0 ≤ d := hdc.1
      have hc : ratingOk c := hdc.2
      have hg := experience_gained_nonneg hd hc
      have hstep := @practice_updated_inv db skill_name d c hd hc hInv
      obtain ⟨r1, hr1⟩ : ∃ r1,
          (practice_skill db skill_name d c).1.lookup skill_name =
            some r1 := by
        cases hm : db.lookup skill_name with
        | none =>
            simp only [practice_skill, hm]
            exact ⟨_, by rw [lookup_append_of_none hm, lookup_cons_self]⟩
        | some r0 =>
            simp only [practice_skill, hm]
            exact ⟨_, lookup_dbReplace_self hm⟩
      have hfacts := hstep.2 r1 hr1
      have hexp1 : expOf (practice_skill db skill_name d c).1
          skill_name = expOf db skill_name +
            calculate_experience_gained d c := by
        rw [expOf, hr1]
        simpa using hfacts.1
      have hexp0 : 0 ≤ expOf db skill_name := by
        rw [expOf]
        cases hm : db.lookup skill_name with
        | none => simp
        | some r0 => simpa using (hInv skill_name r0 hm).1
      have hlev1 : levelOf db skill_name ≤
          levelOf (practice_skill db skill_name d c).1 skill_name := by
        simp only [levelOf, hr1, Option.map_some, Option.getD_some]
        cases hm : db.lookup skill_name with
        | none =>
            simp only [Option.map_none', Option.getD_none]
            exact Nat.zero_le _
        | some r0 =>
            show r0.mastery_level ≤ r1.mastery_level
            have h0 := hInv skill_name r0 hm
            have hexpge : r0.experience_points ≤
                r1.experience_points := by
              rw [hfacts.1, expOf, hm]
              show r0.experience_points ≤
                r0.experience_points + calculate_experience_gained d c
              omega
            have hcm := calculate_mastery_level_mono hexpge
            rw [hfacts.2, h0.2,
              ← calculate_mastery_level_eq_specLargestIdx _ h0.1]
            omega
      have hrest := ih _ (fun q hq => hIn q (List.mem_cons_of_mem _ hq))
        hstep.1
      refine ⟨?_, ?_, hrest.2.2⟩
      · calc expOf db skill_name ≤
            expOf (practice_skill db skill_name d c).1 skill_name := by
              rw [hexp1]; omega
          _ ≤ _ := hrest.1
      · exact le_trans hlev1 hrest.2.1

/-- Witness for claim C6: two practice sessions of the breathing skill
in a fresh session (20 minutes rated 5, then 40 minutes unrated). -/
theorem claim_C6_witness :
    expOf [] ("mindful_breathing") ≤
      expOf (practiceSeq [] ("mindful_breathing")
        [(20, some 5), (40, none)]) ("mindful_breathing") ∧
    levelOf [] ("mindful_breathing") ≤
      levelOf (practiceSeq [] ("mindful_breathing")
        [(20, some 5), (40, none)]) ("mindful_breathing") ∧
    dbInv (practiceSeq [] ("mindful_breathing")
      [(20, some 5), (40, none)]) :=
  claim_C6_monotonicity [] ("mindful_breathing")
    [(20, some 5), (40, none)]
    (by
      intro p hp
      rcases List.mem_cons.mp hp with rfl | hp2
      · exact ⟨by norm_num, by intro r hr; injection hr with h2; omega⟩
      · rcases List.mem_cons.mp hp2 with rfl | hp3
        · exact ⟨by norm_num, by intro r hr; cases hr⟩
        · cases hp3)
    (by intro n r h; simp [List.lookup] at h)

/-! ## Claim C10 -/

/-- Claim C10 (implicit): `emotion_to_color` is case-insensitive — for
every input string, its color equals the color of its lower-cased form
(so `"JOY"`, `"Joy"` and `"joy"` all map to the same color), because the
function lower-cases its argument before the table lookup.  Confirmed:
lower-casing is idempotent, so the looked-up key is the same. -/
theorem claim_C10_case_insensitive :
    (∀ emotion : List Nat,
      emotion_to_color emotion = emotion_to_color (pyLower emotion)) ∧
    emotion_to_color (s2l ("JOY")) = emotion_to_color (s2l ("joy")) ∧
    emotion_to_color (s2l ("Joy")) = emotion_to_color (s2l ("joy")) := by
  refine ⟨?_, by decide, by decide⟩
  intro emotion
  unfold emotion_to_color
  rw [pyLower_idem]

/-! ## Claim C4 -/

/-- Counterexample to claim C4 as stated.  Claim C4 says the function
samples AT MOST 50 candidate points and, when all 50 attempts fail,
returns the LAST sampled point.  On the stream `sampleC4` (first 50
draws at `(60,60)`, all within 80 of the existing element at `(60,60)`)
the source falls through the loop and then draws one MORE fresh point —
the 51st sample `(400,300)` — and returns it; the behaviour the claim
describes (`claimedElementPosition`) would return the 50th sample
`(60,60)` instead.  The two disagree. -/
theorem claim_C4_counterexample :
    calculate_element_position existingC4 800 600 sampleC4 =
      (400, 300) ∧
    claimedElementPosition existingC4 sampleC4 = (60, 60) ∧
    ((400 : Rat), (300 : Rat)) ≠ ((60 : Rat), (60 : Rat)) := by
  have hclose : existingC4.any (tooCloseTo 60 60) = true := by
    simp only [existingC4, tooCloseTo, List.any_cons, List.any_nil,
      Bool.or_false, decide_eq_true_eq]
    norm_num
  have hs : ∀ i : Nat, i < 50 → sampleC4 i = (60, 60) := by
    intro i hi
    simp [sampleC4, hi]
  have hfind : (List.range 50).find? (fun i =>
      !(existingC4.any
        (tooCloseTo (sampleC4 i).1 (sampleC4 i).2))) = none := by
    rw [List.find?_eq_none]
    intro i hi
    rw [hs i (List.mem_range.mp hi)]
    simp [hclose]
  refine ⟨?_, ?_, by simp⟩
  · rw [calculate_element_position, positionLoop_eq,
      ← List.range_eq_range', hfind]
    simp [sampleC4]
  · rw [claimedElementPosition, hfind]
    exact hs 49 (by omega)

/-- Claim C4, amended as the counterexample forces:
`calculate_element_position` samples at most 51 points: it returns the
first of its first 50 samples whose (Euclidean) distance to every
existing position is at least 80; if all 50 attempts fail it draws one
further fresh point — the 51st sample — and returns it unchecked
(overlap allowed), terminating in every case.  All samples, hence the
result, lie in the box `[50, width-50] × [50, height-50]`. -/
theorem claim_C4_amended (existing_elements : List ElementPos)
    (canvas_width canvas_height : Int) (sample : Nat → Rat × Rat) :
    calculate_element_position existing_elements canvas_width
        canvas_height sample =
      (match (List.range 50).find? (fun i =>
          !(existing_elements.any
            (tooCloseTo (sample i).1 (sample i).2))) with
       | some i => sample i
       | none => sample 50) ∧
    ((∀ i, inCanvas canvas_width canvas_height (sample i)) →
      inCanvas canvas_width canvas_height
        (calculate_element_position existing_elements canvas_width
          canvas_height sample)) := by
  have key : calculate_element_position existing_elements canvas_width
      canvas_height sample =
      (match (List.range 50).find? (fun i =>
          !(existing_elements.any
            (tooCloseTo (sample i).1 (sample i).2))) with
       | some i => sample i
       | none => sample 50) := by
    rw [calculate_element_position, positionLoop_eq,
      ← List.range_eq_range']
  refine ⟨key, fun hbox => ?_⟩
  rw [key]
  cases hq : (List.range 50).find? (fun i =>
      !(existing_elements.any
        (tooCloseTo (sample i).1 (sample i).2))) with
  | none => simp only [hq]; exact hbox 50
  | some j => simp only [hq]; exact hbox j

/-- Witness for claim C4 (amended): with no existing elements and a
constant in-canvas stream, the first sample is returned and lies in the
canvas box. -/
theorem claim_C4_witness :
    calculate_element_position [] 800 600 sampleC4W = (60, 60) ∧
    inCanvas 800 600 (calculate_element_position [] 800 600 sampleC4W) :=
  ⟨((claim_C4_amended [] 800 600 sampleC4W).1).trans (by decide),
   (claim_C4_amended [] 800 600 sampleC4W).2
     (fun i => by norm_num [inCanvas, sampleC4W])⟩

/-! ## Claim C1 -/

/-- Claim C1: for every input text, `analyze_sentiment` never raises to
its caller (it is a total function of the text and of the outcome of
the one fallible external call): it returns a record with
`sentiment_score ∈ [-1, 1]` (given TextBlob's documented polarity range
`[-1, 1]`) and a non-empty `themes` list, and when the internal call
raises it returns exactly the documented neutral fallback record with
`sentiment_score = 0.0`, `primary_emotion = "neutral"`,
`themes = ["reflection"]` and `confidence = 0.3`.  Confirmed. -/
theorem claim_C1_analyze_total (text : List Nat)
    (blob : Option (Rat × Rat))
    (hpol : ∀ p s, blob = some (p, s) → -1 ≤ p ∧ p ≤ 1) :
    (-1 ≤ (analyze_sentiment text blob).sentiment_score ∧
      (analyze_sentiment text blob).sentiment_score ≤ 1) ∧
    (analyze_sentiment text blob).themes ≠ [] ∧
    (blob = none →
      analyze_sentiment text blob = fallback_analysis text ∧
      (fallback_analysis text).sentiment_score = 0 ∧
      (fallback_analysis text).primary_emotion = "neutral" ∧
      (fallback_analysis text).themes = ["reflection"] ∧
      (fallback_analysis text).confidence = 0.3) := by
  cases blob with
  | none =>
      refine ⟨⟨?_, ?_⟩, ?_, ?_⟩
      · show (-1 : Rat) ≤ 0
        norm_num
      · show (0 : Rat) ≤ 1
        norm_num
      · show (["reflection"] : List String) ≠ []
        simp
      · intro _
        exact ⟨rfl, rfl, rfl, rfl, rfl⟩
  | some ps =>
      obtain ⟨p, s⟩ := ps
      have hb := hpol p s rfl
      have hr := pyRound3_bounds hb.1 hb.2
      refine ⟨⟨hr.1, hr.2⟩, ?_, ?_⟩
      · show extract_themes (clean_text text) ≠ []
        exact extract_themes_ne_nil _
      · intro h
        exact Option.noConfusion h

/-- Witness for claim C1 at the text `"happy"` with a successful
external call of polarity and subjectivity one half. -/
theorem claim_C1_witness :
    (-1 ≤ (analyze_sentiment (s2l ("happy"))
        (some (1/2, 1/2))).sentiment_score ∧
      (analyze_sentiment (s2l ("happy"))
        (some (1/2, 1/2))).sentiment_score ≤ 1) ∧
    (analyze_sentiment (s2l ("happy")) (some (1/2, 1/2))).themes ≠
      [] := by
  have h := claim_C1_analyze_total (s2l ("happy")) (some (1/2, 1/2))
    (by
      intro p s hps
      rw [Option.some.injEq, Prod.mk.injEq] at hps
      obtain ⟨h1, h2⟩ := hps
      rw [← h1]
      norm_num)
  exact ⟨h.1, h.2.1⟩

end Havenmind
